import Mathlib

/-!
Verification of the njangi reporting dashboard (src/streamlit_app.py).

The program is a read-only Streamlit page over a Supabase store.  We give a
shallow embedding of its data handling: pandas DataFrames become `DF`
(a column-name list plus a row list of cells), pandas/Python scalar values
become `Cell` (a rational number, a string, or null standing for
None/NaN/NaT), and each helper of the source file becomes a Lean function of
the same name.  Floating point is modelled by `ℚ`; the special values
inf/nan and negative zero are outside the model.
-/

/-- A scalar value in a loaded table: a number, a string, or null
(Python `None`, pandas `NaN`/`NaT`). -/
inductive Cell where
  | num (q : ℚ)
  | str (s : String)
  | null
deriving DecidableEq, Repr

/-- A pandas DataFrame: ordered column names and rows of cells.
A well-formed frame has every row of length `cols.length`; the operations
below read missing positions as `Cell.null`. -/
structure DF where
  cols : List String
  rows : List (List Cell)
deriving DecidableEq, Repr

/-- The frame `pd.DataFrame()`: no columns, no rows. -/
def DF.emptyFrame : DF := ⟨[], []⟩

/-- Pandas `df.empty`: true when either axis has length 0. -/
def DF.empty (df : DF) : Bool := df.rows.isEmpty || df.cols.isEmpty

/-- Position of a name in a column list. -/
def idxOfCol (c : String) : List String → Option ℕ
  | [] => none
  | a :: as => if a = c then some 0 else (idxOfCol c as).map (fun i => i + 1)

/-- Position of a column name in the frame's column list. -/
def DF.colIdx (df : DF) (c : String) : Option ℕ :=
  idxOfCol c df.cols

/-- The value a row holds in column `c` (`Cell.null` when absent). -/
def DF.rowVal (df : DF) (r : List Cell) (c : String) : Cell :=
  match df.colIdx c with
  | some i => r.getD i Cell.null
  | none => Cell.null

/-- Indexing `df[c]` as a list of cells, one per row. -/
def DF.getCol (df : DF) (c : String) : List Cell :=
  df.rows.map (fun r => df.rowVal r c)

/-- Python `len(df)`: the number of rows. -/
def DF.lenRows (df : DF) : ℕ := df.rows.length

/-- src line 51: `pick_col(df, options)` returns the first name in `options`
that is a column of `df`, else None. -/
def pick_col (df : DF) (options : List String) : Option String :=
  options.find? (fun c => df.cols.contains c)

/-! ### Numeric parsing (Python `float` / `pd.to_numeric`) -/

/-- Decimal digits to a natural number. -/
def digitsToNat (cs : List Char) : ℕ :=
  cs.foldl (fun a c => a * 10 + (c.toNat - 48)) 0

/-- An unsigned decimal literal `digits[.digits]`, at least one digit. -/
def parseUnsigned (cs : List Char) : Option ℚ :=
  let intPart := cs.takeWhile Char.isDigit
  let rest := cs.dropWhile Char.isDigit
  match rest with
  | [] =>
    if intPart.isEmpty then none else some ((digitsToNat intPart : ℚ))
  | '.' :: rest2 =>
    let fracPart := rest2.takeWhile Char.isDigit
    if (rest2.dropWhile Char.isDigit).isEmpty then
      if intPart.isEmpty && fracPart.isEmpty then none
      else some ((digitsToNat intPart : ℚ) +
        (digitsToNat fracPart : ℚ) / ((10 : ℚ) ^ fracPart.length))
    else none
  | _ => none

/-- ASCII whitespace, for stripping around numeric literals. -/
def isSpaceChar (c : Char) : Bool :=
  c == ' ' || c == '\t' || c == '\n' || c == '\r'

/-- Strip whitespace from both ends of a character list. -/
def trimChars (cs : List Char) : List Char :=
  ((cs.dropWhile isSpaceChar).reverse.dropWhile isSpaceChar).reverse

/-- Python `float(s)` on a string (also the per-value string parse of
`pd.to_numeric`): optional surrounding whitespace, optional sign, decimal
literal.  Exponents and the special spellings inf/nan are not modelled. -/
def parseFloat (s : String) : Option ℚ :=
  match trimChars s.toList with
  | '-' :: rest => (parseUnsigned rest).map (fun q => -q)
  | '+' :: rest => parseUnsigned rest
  | rest => parseUnsigned rest

/-- One value under `pd.to_numeric(_, errors="coerce")`: numbers pass
through, strings are parsed, null and parse failures give NaN (`none`). -/
def toNumericCell (c : Cell) : Option ℚ :=
  match c with
  | Cell.num q => some q
  | Cell.str s => parseFloat s
  | Cell.null => none

/-- src line 57: `to_number(s) = pd.to_numeric(s, errors="coerce").fillna(0)`. -/
def to_number (col : List Cell) : List ℚ :=
  col.map (fun c => (toNumericCell c).getD 0)

/-! ### Metric aggregation (src lines 82-100) -/

def contribAmountCandidates : List String :=
  ["amount", "amount_paid", "contribution_amount", "paid_amount", "value"]

def foundationAmountCandidates : List String :=
  ["amount_paid", "amount", "paid_amount", "value"]

def loanDueCandidates : List String :=
  ["total_due", "amount_due", "balance", "due_amount", "remaining_due"]

def interestCandidates : List String :=
  ["interest", "interest_amount", "interest_generated"]

/-- src line 82: `members_count = len(members_df) if not members_df.empty else 0`. -/
def members_count (members_df : DF) : ℕ :=
  if members_df.empty then 0 else members_df.lenRows

/-- src lines 85-86: the Njangi pot total over the contributions table. -/
def pot_total (contrib_df : DF) : ℚ :=
  match pick_col contrib_df contribAmountCandidates with
  | some c => if contrib_df.empty then 0 else (to_number (contrib_df.getCol c)).sum
  | none => 0

/-- src lines 89-90: the foundation total over the foundation payments table. -/
def foundation_total (foundation_pay_df : DF) : ℚ :=
  match pick_col foundation_pay_df foundationAmountCandidates with
  | some c =>
    if foundation_pay_df.empty then 0 else (to_number (foundation_pay_df.getCol c)).sum
  | none => 0

/-- src lines 94-96: outstanding loans due over the loans table. -/
def outstanding_loans_due (loans_df : DF) : ℚ :=
  match pick_col loans_df loanDueCandidates with
  | some c => if loans_df.empty then 0 else (to_number (loans_df.getCol c)).sum
  | none => 0

/-- src lines 99-100: total interest over the history table. -/
def total_interest (history_df : DF) : ℚ :=
  match pick_col history_df interestCandidates with
  | some c => if history_df.empty then 0 else (to_number (history_df.getCol c)).sum
  | none => 0

/-! ### The money formatter (src lines 60-64) -/

/-- A Python value reaching `money` or `float`. -/
inductive PyVal where
  | num (q : ℚ)
  | str (s : String)
  | noneV
deriving DecidableEq, Repr

/-- Python `float(x)`: numbers pass, strings parse, None raises (`none`). -/
def pyFloat (x : PyVal) : Option ℚ :=
  match x with
  | PyVal.num q => some q
  | PyVal.str s => parseFloat s
  | PyVal.noneV => none

/-- The floor of a rational, computed by floor division of the numerator by
the denominator (so that kernel reduction works on it). -/
def ratFloor (q : ℚ) : ℤ := q.num.fdiv (q.den : ℤ)

/-- Round to the nearest integer, ties to even — the rounding of Python
format `.0f`. -/
def roundHalfEven (q : ℚ) : ℤ :=
  let f : ℤ := ratFloor q
  let frac : ℚ := q - (f : ℚ)
  if frac < 1 / 2 then f
  else if (1 : ℚ) / 2 < frac then f + 1
  else if f % 2 = 0 then f else f + 1

/-- Group the reversed digit list into blocks of three (least significant
block first). -/
def chunk3 : List Char → List (List Char)
  | [] => []
  | a :: b :: c :: rest => [a, b, c] :: chunk3 rest
  | rest => [rest]

/-- Render a natural number with thousands separators. -/
def commaGroup (n : ℕ) : String :=
  let groups := chunk3 (toString n).toList.reverse
  String.intercalate "," ((groups.map (fun g => String.mk g.reverse)).reverse)

/-- Python format `:,.0f` on a (finite) value: round half-to-even, comma
thousands grouping, leading minus when negative. -/
def fmtComma0f (q : ℚ) : String :=
  let z := roundHalfEven q
  if z < 0 then "-" ++ commaGroup z.natAbs else commaGroup z.natAbs

/-- src lines 60-64: `money(x)` formats `float(x)` as dollars and returns
a literal zero-dollar string when the conversion raises. -/
def money (x : PyVal) : String :=
  match pyFloat x with
  | some q => "$" ++ fmtComma0f q
  | none => "$0"

/-! ### Table loading (src lines 30-49) -/

/-- A row as returned by the Supabase client: a dict from column name to
value. -/
def RecordRow : Type := List (String × Cell)

/-- Key order of `pd.DataFrame(list_of_dicts)`: first appearance. -/
def dedupKeys (keys : List String) : List String :=
  keys.foldl (fun acc k => if acc.contains k then acc else acc ++ [k]) []

/-- src lines 30-33: `safe_df(data)` gives `pd.DataFrame()` on a falsy
(empty) payload and otherwise builds the frame from the dict list, missing
keys read as NaN. -/
def safe_df (data : List RecordRow) : DF :=
  if data.isEmpty then DF.emptyFrame
  else
    let cols := dedupKeys ((data.map (fun r => r.map Prod.fst)).flatten)
    ⟨cols, data.map (fun r => cols.map (fun c => ((r.lookup c).getD Cell.null)))⟩

/-- src lines 36-49: `load_table`.  The remote read is external, so its
outcome is a parameter: `Except.ok` is a successful response payload and
`Except.error` any raised exception.  The result pairs the returned frame
with the non-fatal diagnostics surfaced to the page (`st.warning` and
`st.caption`); no exception escapes. -/
def load_table (table_name : String) (fetched : Except String (List RecordRow)) :
    DF × List String :=
  match fetched with
  | Except.ok data => (safe_df data, [])
  | Except.error e =>
    (DF.emptyFrame, ["Could not load " ++ table_name ++ ". (Table missing or RLS blocked)", e])

/-! ### Startup configuration check (src lines 18-25) -/

/-- Python truthiness of `st.secrets.get(k)`: None and the empty string are
falsy, any other string truthy. -/
def truthySecret (v : Option String) : Bool :=
  match v with
  | some s => !(s == "")
  | none => false

/-- Outcome of the top of the script. -/
inductive StartupResult where
  | halted (msg : String)
  | proceed
deriving DecidableEq, Repr

/-- src lines 18-23: the configuration gate.  `st.stop()` ends the script,
so a falsy URL or key halts with the error message. -/
def startup (url key : Option String) : StartupResult :=
  if !truthySecret url || !truthySecret key then
    StartupResult.halted "Missing SUPABASE_URL or SUPABASE_ANON_KEY in Streamlit Secrets."
  else StartupResult.proceed

/-- The eight tables the script loads (src lines 69-76), in order. -/
def tableNames : List String :=
  ["members", "contributions", "foundation_payments", "loans", "fines",
   "payouts", "history", "sureties"]

/-- The script up to the data loads: halting at the configuration gate
yields no page and loads no table; past the gate every table is loaded
through `load_table`. -/
def runApp (url key : Option String) (fetch : String → Except String (List RecordRow)) :
    Option (List DF) :=
  match startup url key with
  | StartupResult.halted _ => none
  | StartupResult.proceed => some (tableNames.map (fun n => (load_table n (fetch n)).1))

/-! ### Result cache (src line 35)

`@st.cache_data(ttl=30)` lives in Streamlit, outside this repository. -/

/-- Modelled from the spec: one memoized entry of the Streamlit result
cache, "an explicit cache record (value, fetchedAt, ttl) with pull-based
expiry check"; the decorator `st.cache_data(ttl=30)` itself is external
code. -/
structure CacheEntry where
  value : DF
  fetchedAt : ℚ
deriving DecidableEq, Repr

/-- Modelled from the spec: the cache state, keyed by table name, together
with the number of remote reads performed so far. -/
structure CacheState where
  entries : List (String × CacheEntry)
  remoteCalls : ℕ
deriving DecidableEq, Repr

/-- The fixed time-to-live of the cache, in seconds. -/
def cacheTTL : ℚ := 30

/-- Modelled from the spec: loading a table at time `now` through the
cache.  A stored entry younger than the TTL is returned as is; otherwise
the remote read runs, is counted, and its result is stored with the
current time. -/
def cachedLoad (fetch : String → DF) (s : CacheState) (name : String) (now : ℚ) :
    DF × CacheState :=
  match s.entries.lookup name with
  | some e =>
    if now - e.fetchedAt < cacheTTL then (e.value, s)
    else
      let v := fetch name
      (v, ⟨(name, ⟨v, now⟩) :: s.entries.filter (fun p => p.1 ≠ name), s.remoteCalls + 1⟩)
  | none =>
    let v := fetch name
    (v, ⟨(name, ⟨v, now⟩) :: s.entries, s.remoteCalls + 1⟩)

/-! ### Top-10 contribution chart (src lines 143-177) -/

def nameCandidates : List String := ["member_name", "name", "member", "full_name"]
def memberIdCandidates : List String := ["member_id", "user_id"]
def memIdCandidates : List String := ["id", "member_id"]
def memNameCandidates : List String := ["name", "full_name", "member_name"]

/-- The coerced amount of one contribution row (the chart works on
`work[amount_col] = to_number(work[amount_col])`). -/
def coercedAmount (contrib_df : DF) (amountCol : String) (r : List Cell) : ℚ :=
  (toNumericCell (contrib_df.rowVal r amountCol)).getD 0

/-- The (group key, coerced amount) pairs the chart groups over, following
src lines 146-168: an existing name column wins; else a left merge of
member names over the member-id column (pandas equality, NaN never
matching, one output row per matching member row); else the literal
fallback label. -/
def contribPairs (contrib_df members_df : DF) (amountCol : String) :
    List (Cell × ℚ) :=
  let fallback := contrib_df.rows.map
    (fun r => (Cell.str "Member", coercedAmount contrib_df amountCol r))
  match pick_col contrib_df nameCandidates with
  | some nc =>
    contrib_df.rows.map (fun r => (contrib_df.rowVal r nc, coercedAmount contrib_df amountCol r))
  | none =>
    match pick_col contrib_df memberIdCandidates with
    | some mic =>
      if members_df.empty then fallback
      else
        match pick_col members_df memIdCandidates, pick_col members_df memNameCandidates with
        | some midc, some mnc =>
          (contrib_df.rows.map (fun r =>
            let key := contrib_df.rowVal r mic
            let matched := if key = Cell.null then []
              else members_df.rows.filter (fun m => members_df.rowVal m midc = key)
            if matched.isEmpty then [(Cell.null, coercedAmount contrib_df amountCol r)]
            else matched.map
              (fun m => (members_df.rowVal m mnc, coercedAmount contrib_df amountCol r)))).flatten
        | _, _ => fallback
    | none => fallback

/-- Group keys in first-appearance order (the key sorting pandas applies to
`groupby` output is immaterial here: the result is re-sorted by amount). -/
def groupKeys (pairs : List (Cell × ℚ)) : List Cell :=
  (pairs.map Prod.fst).foldl (fun acc k => if acc.contains k then acc else acc ++ [k]) []

/-- Pandas `groupby(name_col, dropna=False)[amount_col].sum()`. -/
def groupbySum (pairs : List (Cell × ℚ)) : List (Cell × ℚ) :=
  (groupKeys pairs).map (fun k => (k, ((pairs.filter (fun p => p.1 = k)).map Prod.snd).sum))

/-- Insert into a list sorted by amount descending (stable: equal amounts
keep their order). -/
def insertAmtDesc (x : Cell × ℚ) : List (Cell × ℚ) → List (Cell × ℚ)
  | [] => [x]
  | y :: ys => if y.2 < x.2 then x :: y :: ys else y :: insertAmtDesc x ys

/-- Pandas `sort_values(ascending=False)` on the summed amounts. -/
def sortAmtDesc (l : List (Cell × ℚ)) : List (Cell × ℚ) :=
  l.foldl (fun acc x => insertAmtDesc x acc) []

/-- src lines 143-177: the data behind the Top-10 chart; `none` is the
"No contributions found" branch. -/
def topContributors (contrib_df members_df : DF) : Option (List (Cell × ℚ)) :=
  match pick_col contrib_df contribAmountCandidates with
  | none => none
  | some ac =>
    if contrib_df.empty then none
    else some ((sortAmtDesc (groupbySum (contribPairs contrib_df members_df ac))).take 10)

/-! ### Recent activity (src lines 216-238) -/

def timeCandidates : List String := ["created_at", "time", "date", "timestamp"]
def typeCandidates : List String := ["type", "action", "event_type", "category"]
def histMemberCandidates : List String := ["member_name", "name", "member", "full_name"]
def histAmountCandidates : List String := ["amount", "value", "amount_paid"]
def interestPctCandidates : List String := ["interest_pct", "interest_rate", "interest_percent"]
def histTotalDueCandidates : List String := ["total_due", "amount_due", "due_amount"]

/-- Column selection `df[cs]`: keep the listed columns, in that order. -/
def selectCols (df : DF) (cs : List String) : DF :=
  ⟨cs, df.rows.map (fun r => cs.map (fun c => df.rowVal r c))⟩

/-- Split a character list at a separator. -/
def splitChar (sep : Char) : List Char → List (List Char)
  | [] => [[]]
  | c :: rest =>
    let r := splitChar sep rest
    if c = sep then [] :: r
    else
      match r with
      | [] => [[c]]
      | g :: gs => (c :: g) :: gs

/-- Digits only, to a natural number. -/
def parseNatDigits (cs : List Char) : Option ℕ :=
  if cs.isEmpty || !cs.all Char.isDigit then none else some (digitsToNat cs)

/-- An ISO date `YYYY-MM-DD`, encoded order-preservingly as a natural. -/
def parseDate (cs : List Char) : Option ℕ :=
  match splitChar '-' cs with
  | [y, m, d] =>
    match parseNatDigits y, parseNatDigits m, parseNatDigits d with
    | some y2, some m2, some d2 =>
      if 1 ≤ m2 && m2 ≤ 12 && 1 ≤ d2 && d2 ≤ 31 then some (y2 * 10000 + m2 * 100 + d2)
      else none
    | _, _, _ => none
  | _ => none

/-- A time of day `HH:MM[:SS]` as seconds since midnight. -/
def parseTimeOfDay (cs : List Char) : Option ℕ :=
  match splitChar ':' cs with
  | [h, mi] =>
    match parseNatDigits h, parseNatDigits mi with
    | some h2, some mi2 => if h2 ≤ 23 && mi2 ≤ 59 then some (h2 * 3600 + mi2 * 60) else none
    | _, _ => none
  | [h, mi, s] =>
    match parseNatDigits h, parseNatDigits mi, parseNatDigits s with
    | some h2, some mi2, some s2 =>
      if h2 ≤ 23 && mi2 ≤ 59 && s2 ≤ 59 then some (h2 * 3600 + mi2 * 60 + s2) else none
    | _, _, _ => none
  | _ => none

/-- ISO timestamp parsing as performed by `pd.to_datetime` on a string:
date, optionally followed by a `T`- or space-separated time of day.  The
result is a rational whose order agrees with chronological order. -/
def parseTimestamp (s : String) : Option ℚ :=
  let cs := trimChars s.toList
  let parts := if cs.contains 'T' then splitChar 'T' cs else splitChar ' ' cs
  match parts with
  | [d] => (parseDate d).map (fun n => ((n * 100000 : ℕ) : ℚ))
  | [d, t] =>
    match parseDate d, parseTimeOfDay t with
    | some dd, some tt => some (((dd * 100000 + tt : ℕ) : ℚ))
    | _, _ => none
  | _ => none

/-- One value under `pd.to_datetime`: numbers are epoch offsets (kept,
order-preserving), strings must parse, null is NaT. -/
def cellToDatetime (c : Cell) : Option Cell :=
  match c with
  | Cell.num q => some (Cell.num q)
  | Cell.str s => (parseTimestamp s).map Cell.num
  | Cell.null => some Cell.null

/-- Conversion `pd.to_datetime(col, errors="ignore")` is all-or-nothing: `some`
converted column when every value converts, `none` (column left as is)
otherwise. -/
def convertAllDatetime (col : List Cell) : Option (List Cell) :=
  let conv := col.map cellToDatetime
  if conv.all Option.isSome then some (conv.map (fun o => o.getD Cell.null)) else none

def isNumCell : Cell → Bool
  | Cell.num _ => true
  | _ => false

def isStrCell : Cell → Bool
  | Cell.str _ => true
  | _ => false

/-- Sorting an object column that mixes numbers and strings raises in
pandas; a homogeneous column (nulls aside) is comparable. -/
def comparableColumn (col : List Cell) : Bool :=
  !(col.any isNumCell && col.any isStrCell)

/-- Whether `a` strictly precedes `b` in a descending sort; nulls (NaN/NaT) sort
last, as pandas places them. -/
def descBefore (a b : Cell) : Bool :=
  match a, b with
  | Cell.null, _ => false
  | _, Cell.null => true
  | Cell.num x, Cell.num y => y < x
  | Cell.str x, Cell.str y => y < x
  | _, _ => false

/-- Stable insertion for a descending sort keyed through `key`. -/
def insertKeyDesc (key : List Cell → Cell) (x : List Cell) :
    List (List Cell) → List (List Cell)
  | [] => [x]
  | y :: ys => if descBefore (key x) (key y) then x :: y :: ys else y :: insertKeyDesc key x ys

/-- Stable descending sort of rows by `key`. -/
def sortRowsByDesc (key : List Cell → Cell) (l : List (List Cell)) : List (List Cell) :=
  l.foldl (fun acc x => insertKeyDesc key x acc) []

/-- Pandas `sort_values(tc, ascending=False)`: `none` models the raised
comparison error on an incomparable column. -/
def sortValuesDesc (view : DF) (tc : String) : Option DF :=
  if comparableColumn (view.getCol tc) then
    some ⟨view.cols, sortRowsByDesc (fun r => view.rowVal r tc) view.rows⟩
  else none

/-- Column assignment `view[c] = vals`. -/
def setCol (df : DF) (c : String) (vals : List Cell) : DF :=
  match df.colIdx c with
  | some i => ⟨df.cols, (df.rows.zip vals).map (fun p => p.1.set i p.2)⟩
  | none => df

/-- src line 227: `show_cols`, the resolved display columns in their fixed
order. -/
def showCols (history_df : DF) : List String :=
  [pick_col history_df timeCandidates, pick_col history_df typeCandidates,
   pick_col history_df histMemberCandidates, pick_col history_df histAmountCandidates,
   pick_col history_df interestPctCandidates,
   pick_col history_df histTotalDueCandidates].reduceOption

/-- src line 228: `view = history_df[show_cols]` (a copy of the whole
frame when nothing resolved). -/
def historyView (history_df : DF) : DF :=
  if (showCols history_df).isEmpty then history_df
  else selectCols history_df (showCols history_df)

/-- src line 233: the view after
`view[time_col] = pd.to_datetime(view[time_col], errors="ignore")`. -/
def historyConverted (history_df : DF) : DF :=
  match pick_col history_df timeCandidates with
  | some tc =>
    if (historyView history_df).cols.contains tc then
      match convertAllDatetime ((historyView history_df).getCol tc) with
      | some cs => setCol (historyView history_df) tc cs
      | none => historyView history_df
    else historyView history_df
  | none => historyView history_df

/-- src lines 230-236: the view after the whole try block.  The sort at
line 234 runs on the (possibly unconverted) time column; an exception in
it is swallowed and leaves the converted, unsorted frame. -/
def historyView2 (history_df : DF) : DF :=
  match pick_col history_df timeCandidates with
  | some tc =>
    if (historyView history_df).cols.contains tc then
      match sortValuesDesc (historyConverted history_df) tc with
      | some sortedView => sortedView
      | none => historyConverted history_df
    else historyView history_df
  | none => historyView history_df

/-- src lines 216-238: the frame behind the Recent Activity table (`none`
is the "No history/activity found" branch); `st.dataframe(view.head(20))`
shows the first 20 rows of the processed view. -/
def recentActivity (history_df : DF) : Option DF :=
  if history_df.empty then none
  else some ⟨(historyView2 history_df).cols, (historyView2 history_df).rows.take 20⟩

example : money (PyVal.str "abc") = "$0" := by with_unfolding_all decide
example : money (PyVal.num 1234567) = "$1,234,567" := by with_unfolding_all decide
example : money (PyVal.num (2500 / 1000 : ℚ)) = "$2" := by with_unfolding_all decide
example : money (PyVal.num (-(4500 / 1000) : ℚ)) = "$-4" := by with_unfolding_all decide
example : to_number [Cell.str "100", Cell.str "abc", Cell.null, Cell.num 3] = [100, 0, 0, 3] := by
  with_unfolding_all decide

/-! ## Theorems -/

/-- The common shape of the four metric expressions of src lines 86-100. -/
def metricOf (df : DF) (cands : List String) : ℚ :=
  match pick_col df cands with
  | some cc => if df.empty then 0 else (to_number (df.getCol cc)).sum
  | none => 0

lemma metricOf_zero (df : DF) (cands : List String)
    (hx : df.empty = true ∨ pick_col df cands = none) : metricOf df cands = 0 := by
  rcases hp : pick_col df cands with _ | cc
  · simp [metricOf, hp]
  · rcases hx with he | hn
    · simp [metricOf, hp, he]
    · rw [hp] at hn; simp at hn

/-- C1: each of the four table metrics is 0, with no error, whenever its
table is empty (in particular the empty frame a failed or empty load
yields) or no candidate column resolves. -/
theorem metrics_absent_zero (c f l h : DF) :
    ((c.empty = true ∨ pick_col c contribAmountCandidates = none) → pot_total c = 0) ∧
    ((f.empty = true ∨ pick_col f foundationAmountCandidates = none) → foundation_total f = 0) ∧
    ((l.empty = true ∨ pick_col l loanDueCandidates = none) → outstanding_loans_due l = 0) ∧
    ((h.empty = true ∨ pick_col h interestCandidates = none) → total_interest h = 0) :=
  ⟨fun hx => metricOf_zero c contribAmountCandidates hx,
   fun hx => metricOf_zero f foundationAmountCandidates hx,
   fun hx => metricOf_zero l loanDueCandidates hx,
   fun hx => metricOf_zero h interestCandidates hx⟩

/-- C1 witness: all four metrics on the empty frame. -/
theorem metrics_absent_zero_app :
    pot_total DF.emptyFrame = 0 ∧ foundation_total DF.emptyFrame = 0 ∧
    outstanding_loans_due DF.emptyFrame = 0 ∧ total_interest DF.emptyFrame = 0 :=
  have h := metrics_absent_zero DF.emptyFrame DF.emptyFrame DF.emptyFrame DF.emptyFrame
  ⟨h.1 (Or.inl (by with_unfolding_all decide)),
   h.2.1 (Or.inl (by with_unfolding_all decide)),
   h.2.2.1 (Or.inl (by with_unfolding_all decide)),
   h.2.2.2 (Or.inl (by with_unfolding_all decide))⟩

/-- C3: numeric coercion is length-preserving and total; positionally, a
value that fails to parse becomes 0 and a parsed value becomes its parse. -/
theorem to_number_total (col : List Cell) :
    (to_number col).length = col.length ∧
    ∀ i, i < col.length →
      (toNumericCell (col.getD i Cell.null) = none → (to_number col).getD i 1 = 0) ∧
      (∀ q, toNumericCell (col.getD i Cell.null) = some q → (to_number col).getD i 1 = q) := by
  induction col with
  | nil => exact ⟨rfl, fun i hi => absurd hi (by simp)⟩
  | cons a l ih =>
    refine ⟨by simp [to_number], ?_⟩
    intro i hi
    cases i with
    | zero =>
      constructor
      · intro hn
        simp [List.getD] at hn
        simp [to_number, List.getD, hn]
      · intro q hq
        simp [List.getD] at hq
        simp [to_number, List.getD, hq]
    | succ n =>
      have hn : n < l.length := by simpa using hi
      have h2 := ih.2 n hn
      constructor
      · intro hx
        have := h2.1 (by simpa [List.getD] using hx)
        simpa [to_number, List.getD] using this
      · intro q hx
        have := h2.2 q (by simpa [List.getD] using hx)
        simpa [to_number, List.getD] using this

/-- C3 witness: coercion at a failing and a succeeding position. -/
theorem to_number_total_app :
    (to_number [Cell.str "abc", Cell.num 2]).length = 2 ∧
    (to_number [Cell.str "abc", Cell.num 2]).getD 0 1 = 0 ∧
    (to_number [Cell.str "abc", Cell.num 2]).getD 1 1 = 2 :=
  have h := to_number_total [Cell.str "abc", Cell.num 2]
  ⟨h.1,
   (h.2 0 (by decide)).1 (by with_unfolding_all decide),
   (h.2 1 (by decide)).2 2 (by with_unfolding_all decide)⟩

/-- C4: a failed remote read gives the empty frame together with at least
one non-fatal diagnostic (the function returns instead of raising), and
every downstream metric over that frame is zero. -/
theorem load_table_failure_recovers (name e : String) :
    (load_table name (Except.error e)).1 = DF.emptyFrame ∧
    (load_table name (Except.error e)).2 ≠ [] ∧
    pot_total (load_table name (Except.error e)).1 = 0 ∧
    foundation_total (load_table name (Except.error e)).1 = 0 ∧
    outstanding_loans_due (load_table name (Except.error e)).1 = 0 ∧
    total_interest (load_table name (Except.error e)).1 = 0 ∧
    members_count (load_table name (Except.error e)).1 = 0 := by
  have h1 : (load_table name (Except.error e)).1 = DF.emptyFrame := rfl
  refine ⟨h1, by simp [load_table], ?_, ?_, ?_, ?_, ?_⟩ <;> rw [h1] <;>
    with_unfolding_all decide

/-- The contributions table of the spec scenario in section 8. -/
def contribScenario : DF :=
  safe_df [[("member_id", Cell.num 1), ("amount", Cell.str "100")],
           [("member_id", Cell.num 1), ("amount", Cell.str "abc")]]

/-- The members table of the spec scenario in section 8. -/
def membersScenario : DF :=
  safe_df [[("id", Cell.num 1), ("name", Cell.str "Alice")]]

/-- C5: on the two-row scenario the pot total is 100 (the unparseable
"abc" counting as 0) and the Top-10 chart holds the single bar
Alice -> 100, the name joined from the members table over member_id. -/
theorem scenario_pot_and_top :
    pot_total contribScenario = 100 ∧
    topContributors contribScenario membersScenario = some [(Cell.str "Alice", 100)] := by
  with_unfolding_all decide

/-- C10: `money` never raises: a value `float` accepts is formatted with
the dollar sign (comma grouping, no decimals), anything else becomes the
literal zero-dollar string. -/
theorem money_total (x : PyVal) :
    (pyFloat x = none → money x = "$0") ∧
    (∀ q, pyFloat x = some q → money x = "$" ++ fmtComma0f q) := by
  constructor
  · intro hn; simp [money, hn]
  · intro q hq; simp [money, hq]

/-- C10 witness: an unconvertible and a convertible input. -/
theorem money_total_app :
    money (PyVal.str "abc") = "$0" ∧
    money (PyVal.num (2500 / 1000 : ℚ)) = "$" ++ fmtComma0f (2500 / 1000 : ℚ) :=
  ⟨(money_total (PyVal.str "abc")).1 (by with_unfolding_all decide),
   (money_total (PyVal.num (2500 / 1000 : ℚ))).2 (2500 / 1000 : ℚ) rfl⟩

/-- C2 counterexample: a frame that is empty in the pandas sense (no rows)
but still declares a column.  The claim requires `pick_col` to return
"absent" on every empty table; the code returns the matching column. -/
theorem pick_col_empty_frame_cex :
    (DF.mk ["amount"] []).empty = true ∧
    pick_col (DF.mk ["amount"] []) ["amount"] = some "amount" := by
  with_unfolding_all decide

lemma find_first_contains (cols : List String) (opts : List String) (c : String)
    (h : opts.find? (fun x => cols.contains x) = some c) :
    cols.contains c = true ∧
    ∃ pre suf, opts = pre ++ c :: suf ∧ ∀ x ∈ pre, cols.contains x = false := by
  induction opts with
  | nil => simp [List.find?] at h
  | cons o os ih =>
    by_cases hc : cols.contains o
    · rw [List.find?_cons_of_pos _ hc] at h
      obtain rfl : o = c := by simpa using h
      exact ⟨hc, [], os, rfl, by simp⟩
    · rw [List.find?_cons_of_neg _ (by simpa using hc)] at h
      obtain ⟨h1, pre, suf, heq, hall⟩ := ih h
      refine ⟨h1, o :: pre, suf, by simp [heq], ?_⟩
      intro x hx
      rcases List.mem_cons.mp hx with rfl | hx2
      · simpa using hc
      · exact hall x hx2

/-- C2 amended: `pick_col` returns the first candidate (in priority order)
that is a column of the table, and returns "absent" exactly when no
candidate is a column; a table with no columns — in particular the frame a
failed or empty load yields — always gives "absent".  (Row-emptiness alone
does not force "absent": see the counterexample.)  Determinism and
side-effect freedom hold by construction of the embedding. -/
theorem pick_col_first_match (df : DF) (opts : List String) :
    (∀ c, pick_col df opts = some c →
       df.cols.contains c = true ∧
       ∃ pre suf, opts = pre ++ c :: suf ∧ ∀ x ∈ pre, df.cols.contains x = false) ∧
    (pick_col df opts = none ↔ ∀ c ∈ opts, df.cols.contains c = false) ∧
    (df.cols = [] → pick_col df opts = none) := by
  refine ⟨fun c h => find_first_contains df.cols opts c h, ?_, ?_⟩
  · constructor
    · intro h c hc
      have := List.find?_eq_none.mp h c hc
      simpa using this
    · intro h
      exact List.find?_eq_none.mpr (fun c hc => by simpa using h c hc)
  · intro h0
    exact List.find?_eq_none.mpr (fun c hc => by simp [h0])

/-- C2 witness: first-match on a concrete table and list, and "absent" on
the empty frame. -/
theorem pick_col_first_match_app :
    ((DF.mk ["amount_paid"] [[Cell.num 1]]).cols.contains "amount_paid" = true ∧
     ∃ pre suf, ["amount", "amount_paid"] = pre ++ "amount_paid" :: suf ∧
       ∀ x ∈ pre, (DF.mk ["amount_paid"] [[Cell.num 1]]).cols.contains x = false) ∧
    pick_col DF.emptyFrame ["amount"] = none :=
  ⟨(pick_col_first_match (DF.mk ["amount_paid"] [[Cell.num 1]]) ["amount", "amount_paid"]).1
      "amount_paid" (by with_unfolding_all decide),
   (pick_col_first_match DF.emptyFrame ["amount"]).2.2 rfl⟩

/-- C6 counterexample: a loans table holding `balance` and no `total_due`,
but also `amount_due`, which outranks `balance` in the candidate list; the
metric sums `amount_due`, not `balance`. -/
theorem outstanding_balance_cex :
    ("balance" ∈ (DF.mk ["amount_due", "balance"] [[Cell.num 5, Cell.num 7]]).cols) ∧
    ("total_due" ∉ (DF.mk ["amount_due", "balance"] [[Cell.num 5, Cell.num 7]]).cols) ∧
    outstanding_loans_due (DF.mk ["amount_due", "balance"] [[Cell.num 5, Cell.num 7]]) = 5 ∧
    (to_number ((DF.mk ["amount_due", "balance"] [[Cell.num 5, Cell.num 7]]).getCol "balance")).sum = 7 ∧
    outstanding_loans_due (DF.mk ["amount_due", "balance"] [[Cell.num 5, Cell.num 7]]) ≠
      (to_number ((DF.mk ["amount_due", "balance"] [[Cell.num 5, Cell.num 7]]).getCol "balance")).sum := by
  with_unfolding_all decide

/-- C6 amended: when the loans table has a `balance` column and neither of
the higher-priority candidates `total_due` and `amount_due`, the
outstanding-loans-due metric is the sum of the coerced `balance` values. -/
theorem outstanding_uses_balance (df : DF)
    (hb : df.cols.contains "balance" = true)
    (ht : df.cols.contains "total_due" = false)
    (ha : df.cols.contains "amount_due" = false) :
    outstanding_loans_due df = (to_number (df.getCol "balance")).sum := by
  have hpick : pick_col df loanDueCandidates = some "balance" := by
    unfold pick_col loanDueCandidates
    rw [List.find?_cons_of_neg _ (by simpa using ht), List.find?_cons_of_neg _ (by simpa using ha),
      List.find?_cons_of_pos _ (by simpa using hb)]
  have hstep : outstanding_loans_due df =
      if df.empty then 0 else (to_number (df.getCol "balance")).sum := by
    unfold outstanding_loans_due
    rw [hpick]
  rw [hstep]
  by_cases he : df.empty
  · have hcols : df.cols.isEmpty = false := by
      cases hcs : df.cols with
      | nil => rw [hcs] at hb; simp at hb
      | cons a l => simp
    have hrows : df.rows = [] := by
      have := he
      unfold DF.empty at this
      rw [hcols, Bool.or_false] at this
      exact List.isEmpty_iff.mp this
    simp [he, DF.getCol, hrows, to_number]
  · simp [he]

/-- C6 witness: a one-row loans table with only `balance`. -/
theorem outstanding_uses_balance_app :
    outstanding_loans_due (DF.mk ["balance"] [[Cell.num 7]]) =
      (to_number ((DF.mk ["balance"] [[Cell.num 7]]).getCol "balance")).sum :=
  outstanding_uses_balance (DF.mk ["balance"] [[Cell.num 7]])
    (by with_unfolding_all decide) (by with_unfolding_all decide)
    (by with_unfolding_all decide)

/-- C8 (cache modelled from the spec): a load that misses the cache
performs the remote read; a second load of the same table within the
30-second TTL returns the identical frame and leaves the cache state — in
particular the remote-read count — unchanged. -/
theorem cached_load_within_ttl (fetch : String → DF) (s : CacheState) (name : String)
    (t1 t2 : ℚ) (hmiss : s.entries.lookup name = none) (_hle : t1 ≤ t2)
    (hlt : t2 < t1 + cacheTTL) :
    (cachedLoad fetch (cachedLoad fetch s name t1).2 name t2).1 =
      (cachedLoad fetch s name t1).1 ∧
    (cachedLoad fetch (cachedLoad fetch s name t1).2 name t2).2 =
      (cachedLoad fetch s name t1).2 := by
  have h1 : cachedLoad fetch s name t1 =
      (fetch name, ⟨(name, ⟨fetch name, t1⟩) :: s.entries, s.remoteCalls + 1⟩) := by
    unfold cachedLoad
    rw [hmiss]
  rw [h1]
  have hl : (((name, CacheEntry.mk (fetch name) t1) :: s.entries).lookup name) =
      some ⟨fetch name, t1⟩ := by simp [List.lookup]
  have htt : t2 - t1 < cacheTTL := by linarith
  unfold cachedLoad
  rw [hl]
  simp [htt]

/-- C8 witness: two loads of `members` at times 0 and 10 on a cold cache. -/
theorem cached_load_within_ttl_app :
    (cachedLoad (fun _ => DF.emptyFrame)
        (cachedLoad (fun _ => DF.emptyFrame) ⟨[], 0⟩ "members" 0).2 "members" 10).1 =
      (cachedLoad (fun _ => DF.emptyFrame) ⟨[], 0⟩ "members" 0).1 ∧
    (cachedLoad (fun _ => DF.emptyFrame)
        (cachedLoad (fun _ => DF.emptyFrame) ⟨[], 0⟩ "members" 0).2 "members" 10).2 =
      (cachedLoad (fun _ => DF.emptyFrame) ⟨[], 0⟩ "members" 0).2 :=
  cached_load_within_ttl (fun _ => DF.emptyFrame) ⟨[], 0⟩ "members" 0 10 rfl
    (by with_unfolding_all decide) (by with_unfolding_all decide)

/-- C9 counterexample: a key pair that is present in the secrets store but
with an empty-string URL; the claim as stated says execution proceeds past
the configuration check once both are present, yet startup halts. -/
theorem startup_empty_secret_cex :
    (Option.some "").isSome = true ∧ (Option.some "key").isSome = true ∧
    startup (some "") (some "key") ≠ StartupResult.proceed := by
  with_unfolding_all decide

/-- C9 amended: a URL or key that is absent — or present but empty, which
Python truthiness treats as missing — halts startup with the visible error
before any table is loaded (`runApp` produces no frames); with both
present and non-empty, execution proceeds past the configuration check and
every table is loaded. -/
theorem startup_gate (url key : Option String)
    (fetch : String → Except String (List RecordRow)) :
    (url = none ∨ key = none →
       startup url key =
         StartupResult.halted "Missing SUPABASE_URL or SUPABASE_ANON_KEY in Streamlit Secrets." ∧
       runApp url key fetch = none) ∧
    (truthySecret url = false ∨ truthySecret key = false →
       startup url key ≠ StartupResult.proceed ∧ runApp url key fetch = none) ∧
    (truthySecret url = true → truthySecret key = true →
       startup url key = StartupResult.proceed ∧
       runApp url key fetch = some (tableNames.map (fun n => (load_table n (fetch n)).1))) := by
  refine ⟨?_, ?_, ?_⟩
  · intro h
    have hx : truthySecret url = false ∨ truthySecret key = false := by
      rcases h with h | h <;> [left; right] <;> simp [h, truthySecret]
    rcases hx with hx | hx <;> simp [startup, runApp, hx]
  · intro hx
    rcases hx with hx | hx <;> simp [startup, runApp, hx]
  · intro hu hk
    simp [startup, runApp, hu, hk]

/-- C9 witness: a missing URL halts; a non-empty pair proceeds. -/
theorem startup_gate_app :
    (startup none (some "key") =
       StartupResult.halted "Missing SUPABASE_URL or SUPABASE_ANON_KEY in Streamlit Secrets." ∧
     runApp none (some "key") (fun _ => Except.error "down") = none) ∧
    (startup (some "https://x.supabase.co") (some "key") = StartupResult.proceed ∧
     runApp (some "https://x.supabase.co") (some "key") (fun _ => Except.error "down") =
       some (tableNames.map
         (fun n => (load_table n ((fun _ => Except.error "down") n)).1))) :=
  ⟨(startup_gate none (some "key") (fun _ => Except.error "down")).1 (Or.inl rfl),
   (startup_gate (some "https://x.supabase.co") (some "key")
       (fun _ => Except.error "down")).2.2 (by with_unfolding_all decide)
     (by with_unfolding_all decide)⟩

/-- The history table of the C7 counterexample: a resolved time column
whose values do not parse as timestamps. -/
def histCex : DF := DF.mk ["created_at"] [[Cell.str "a"], [Cell.str "b"]]

/-- C7 counterexample: timestamp parsing fails on `histCex`, yet the
rendered rows are NOT left unsorted — `errors="ignore"` keeps the raw
strings and the sort still runs on them, reversing the original order. -/
theorem recent_activity_unsorted_cex :
    convertAllDatetime ((historyView histCex).getCol "created_at") = none ∧
    recentActivity histCex = some (DF.mk ["created_at"] [[Cell.str "b"], [Cell.str "a"]]) ∧
    recentActivity histCex ≠ some (DF.mk ["created_at"] [[Cell.str "a"], [Cell.str "b"]]) := by
  with_unfolding_all decide

lemma descBefore_asymm (a b : Cell) (h : descBefore a b = true) : descBefore b a = false := by
  cases a with
  | num x =>
    cases b with
    | num y =>
      simp only [descBefore, decide_eq_true_eq] at h
      simp only [descBefore, decide_eq_false_iff_not]
      exact not_lt.mpr h.le
    | str s => simp [descBefore] at h
    | null => simp [descBefore]
  | str x =>
    cases b with
    | num y => simp [descBefore] at h
    | str y =>
      simp only [descBefore, decide_eq_true_eq] at h
      simp only [descBefore, decide_eq_false_iff_not]
      exact not_lt.mpr h.le
    | null => simp [descBefore]
  | null => simp [descBefore] at h

lemma chain_insertKeyDesc (key : List Cell → Cell) (x : List Cell) (l : List (List Cell))
    (h : List.Chain' (fun a b => descBefore (key b) (key a) = false) l) :
    List.Chain' (fun a b => descBefore (key b) (key a) = false) (insertKeyDesc key x l) := by
  induction l with
  | nil => simp [insertKeyDesc]
  | cons y ys ih =>
    by_cases hc : descBefore (key x) (key y) = true
    · simp only [insertKeyDesc]
      rw [if_pos hc]
      exact List.Chain'.cons (descBefore_asymm _ _ hc) h
    · have hc2 : descBefore (key x) (key y) = false := by
        cases hcc : descBefore (key x) (key y)
        · rfl
        · exact absurd hcc hc
      simp only [insertKeyDesc]
      rw [if_neg hc]
      refine List.chain'_cons'.mpr ⟨?_, ih h.tail⟩
      intro b hb
      cases ys with
      | nil =>
        simp [insertKeyDesc] at hb
        subst hb
        exact hc2
      | cons z zs =>
        simp only [insertKeyDesc] at hb
        by_cases hz : descBefore (key x) (key z) = true
        · rw [if_pos hz] at hb
          simp at hb
          subst hb
          exact hc2
        · rw [if_neg hz] at hb
          simp at hb
          subst hb
          exact (List.chain'_cons.mp h).1

lemma chain_foldl_insert (key : List Cell → Cell) :
    ∀ (l acc : List (List Cell)),
      List.Chain' (fun a b => descBefore (key b) (key a) = false) acc →
      List.Chain' (fun a b => descBefore (key b) (key a) = false)
        (l.foldl (fun acc2 x => insertKeyDesc key x acc2) acc) := by
  intro l
  induction l with
  | nil => intro acc h; exact h
  | cons b bs ih => intro acc h; exact ih _ (chain_insertKeyDesc key b acc h)

lemma chain_sortRowsByDesc (key : List Cell → Cell) (l : List (List Cell)) :
    List.Chain' (fun a b => descBefore (key b) (key a) = false) (sortRowsByDesc key l) :=
  chain_foldl_insert key l [] (by simp)

lemma perm_insertKeyDesc (key : List Cell → Cell) (x : List Cell) (l : List (List Cell)) :
    (insertKeyDesc key x l).Perm (x :: l) := by
  induction l with
  | nil => exact List.Perm.refl _
  | cons y ys ih =>
    by_cases hc : descBefore (key x) (key y) = true
    · simp only [insertKeyDesc]
      rw [if_pos hc]
    · simp only [insertKeyDesc]
      rw [if_neg hc]
      exact (ih.cons y).trans (List.Perm.swap x y ys)

lemma perm_foldl_insert (key : List Cell → Cell) :
    ∀ (l acc : List (List Cell)),
      (l.foldl (fun acc2 x => insertKeyDesc key x acc2) acc).Perm (l ++ acc) := by
  intro l
  induction l with
  | nil => intro acc; simp
  | cons b bs ih =>
    intro acc
    have h1 := ih (insertKeyDesc key b acc)
    have h3 : (bs ++ insertKeyDesc key b acc).Perm (bs ++ (b :: acc)) :=
      List.Perm.append_left bs (perm_insertKeyDesc key b acc)
    exact (h1.trans h3).trans List.perm_middle

lemma perm_sortRowsByDesc (key : List Cell → Cell) (l : List (List Cell)) :
    (sortRowsByDesc key l).Perm l := by
  have := perm_foldl_insert key l []
  simpa using this

lemma getD_set_self (r : List Cell) :
    ∀ (i : ℕ) (v : Cell), i < r.length → (r.set i v).getD i Cell.null = v := by
  induction r with
  | nil => intro i v h; simp at h
  | cons a as ih =>
    intro i v h
    cases i with
    | zero => simp
    | succ n =>
      have hn : n < as.length := by simpa using h
      simpa using ih n v hn

lemma zip_set_getD (i : ℕ) :
    ∀ (rows : List (List Cell)) (vals : List Cell),
      rows.length = vals.length → (∀ r ∈ rows, i < r.length) →
      (rows.zip vals).map (fun p => (p.1.set i p.2).getD i Cell.null) = vals := by
  intro rows
  induction rows with
  | nil =>
    intro vals hlen _
    cases vals with
    | nil => rfl
    | cons v vs => simp at hlen
  | cons r rs ih =>
    intro vals hlen hall
    cases vals with
    | nil => simp at hlen
    | cons v vs =>
      simp only [List.zip_cons_cons, List.map_cons]
      rw [getD_set_self r i v (hall r (by simp))]
      rw [ih vs (by simpa using hlen) (fun r2 h2 => hall r2 (by simp [h2]))]

lemma idxOfCol_of_mem (c : String) :
    ∀ (l : List String), c ∈ l → ∃ i, idxOfCol c l = some i ∧ i < l.length := by
  intro l
  induction l with
  | nil => intro h; simp at h
  | cons a as ih =>
    intro h
    by_cases ha : a = c
    · exact ⟨0, by simp [idxOfCol, ha], by simp⟩
    · have hc : c ∈ as := by
        rcases List.mem_cons.mp h with h1 | h1
        · exact absurd h1.symm ha
        · exact h1
      obtain ⟨i, hi, hlt⟩ := ih hc
      exact ⟨i + 1, by simp [idxOfCol, ha, hi], by simpa using Nat.succ_lt_succ hlt⟩

lemma getCol_setCol (df : DF) (c : String) (vals : List Cell) (i : ℕ)
    (hidx : df.colIdx c = some i)
    (hlen : df.rows.length = vals.length)
    (hall : ∀ r ∈ df.rows, i < r.length) :
    (setCol df c vals).getCol c = vals := by
  unfold setCol
  rw [hidx]
  have hidx2 : DF.colIdx ⟨df.cols, (df.rows.zip vals).map (fun p => p.1.set i p.2)⟩ c
      = some i := hidx
  unfold DF.getCol DF.rowVal
  simp only [hidx2]
  rw [List.map_map]
  exact zip_set_getD i df.rows vals hlen hall

lemma convertAll_length (col cs : List Cell) (h : convertAllDatetime col = some cs) :
    cs.length = col.length := by
  simp only [convertAllDatetime] at h
  split at h
  · obtain rfl := Option.some.inj h
    simp
  · cases h

lemma convertAll_no_str (col cs : List Cell) (h : convertAllDatetime col = some cs) :
    ∀ x ∈ cs, isStrCell x = false := by
  simp only [convertAllDatetime] at h
  split at h
  · obtain rfl := Option.some.inj h
    intro x hx
    simp only [List.mem_map] at hx
    obtain ⟨o, ho, rfl⟩ := hx
    obtain ⟨c0, _, rfl⟩ := ho
    cases c0 with
    | num q => rfl
    | str s => cases hp : parseTimestamp s <;> simp [cellToDatetime, hp, isStrCell]
    | null => rfl
  · cases h

lemma comparable_of_no_str (col : List Cell) (h : ∀ x ∈ col, isStrCell x = false) :
    comparableColumn col = true := by
  unfold comparableColumn
  have hstr : col.any isStrCell = false :=
    List.any_eq_false.mpr (fun x hx => by simp [h x hx])
  simp [hstr]

/-- C7 amended: with a non-empty history table and a resolved time column,
the view rendered is the first 20 rows of the processed frame; whenever
the sort does not raise (in particular, whenever timestamp conversion
succeeded) the rows are a permutation of the converted view sorted in
descending time-key order, so the most recent rows come first.  When
timestamp conversion fails the raw values are still sorted — only a sort
that itself raises (incomparable mixed types) leaves the rows in their
original order. -/
theorem recent_activity_sorted (h : DF) (tc : String) (hne : h.empty = false)
    (htc : pick_col h timeCandidates = some tc) :
    recentActivity h = some ⟨(historyView2 h).cols, (historyView2 h).rows.take 20⟩ ∧
    (comparableColumn ((historyConverted h).getCol tc) = true →
      List.Chain'
        (fun a b => descBefore ((historyConverted h).rowVal b tc)
          ((historyConverted h).rowVal a tc) = false) (historyView2 h).rows ∧
      (historyView2 h).rows.Perm (historyConverted h).rows) ∧
    (∀ cs, convertAllDatetime ((historyView h).getCol tc) = some cs →
      comparableColumn ((historyConverted h).getCol tc) = true) ∧
    (comparableColumn ((historyConverted h).getCol tc) = false →
      historyView2 h = historyConverted h) := by
  have hmem : tc ∈ showCols h := by
    simp only [showCols, htc, List.reduceOption_cons_of_some]
    exact List.mem_cons_self _ _
  have hscne : (showCols h).isEmpty = false := by
    cases hsc : showCols h with
    | nil => rw [hsc] at hmem; simp at hmem
    | cons a l => simp
  have hview : historyView h = selectCols h (showCols h) := by
    unfold historyView
    rw [hscne]
    simp
  have hviewcols : (historyView h).cols = showCols h := by rw [hview]; rfl
  have hcont : (historyView h).cols.contains tc = true := by
    rw [hviewcols]; simpa using hmem
  refine ⟨by simp [recentActivity, hne], ?_, ?_, ?_⟩
  · intro hcmp
    have hsv : sortValuesDesc (historyConverted h) tc =
        some ⟨(historyConverted h).cols,
          sortRowsByDesc (fun r => (historyConverted h).rowVal r tc)
            (historyConverted h).rows⟩ := by
      unfold sortValuesDesc
      rw [if_pos hcmp]
    have hv2 : historyView2 h = ⟨(historyConverted h).cols,
        sortRowsByDesc (fun r => (historyConverted h).rowVal r tc)
          (historyConverted h).rows⟩ := by
      simp only [historyView2, htc]
      rw [if_pos hcont, hsv]
    rw [hv2]
    exact ⟨chain_sortRowsByDesc _ _, perm_sortRowsByDesc _ _⟩
  · intro cs hconv
    have hcv : historyConverted h = setCol (historyView h) tc cs := by
      simp only [historyConverted, htc]
      rw [if_pos hcont, hconv]
    obtain ⟨i, hidx, hlt⟩ := idxOfCol_of_mem tc (historyView h).cols (by
      rw [hviewcols]; exact hmem)
    rw [hviewcols] at hlt
    have hrowlen : ∀ r ∈ (historyView h).rows, i < r.length := by
      intro r hr
      rw [hview] at hr
      simp only [selectCols, List.mem_map] at hr
      obtain ⟨r0, _, rfl⟩ := hr
      rw [List.length_map]
      exact hlt
    have hlen2 : (historyView h).rows.length = cs.length := by
      rw [convertAll_length _ _ hconv]
      simp [DF.getCol]
    have hget : (historyConverted h).getCol tc = cs := by
      rw [hcv]
      exact getCol_setCol (historyView h) tc cs i hidx hlen2 hrowlen
    rw [hget]
    exact comparable_of_no_str cs (convertAll_no_str _ _ hconv)
  · intro hcmpf
    have hsv : sortValuesDesc (historyConverted h) tc = none := by
      unfold sortValuesDesc
      rw [if_neg (by simp [hcmpf])]
    simp only [historyView2, htc]
    rw [if_pos hcont, hsv]

/-- A history table whose ISO timestamps all parse, for the C7 witness. -/
def histDemo : DF :=
  DF.mk ["created_at"]
    [[Cell.str "2024-01-02"], [Cell.str "2024-03-04"], [Cell.str "2023-12-31"]]

/-- C7 witness: the rendered view of a parseable history table. -/
theorem recent_activity_sorted_app :
    recentActivity histDemo =
      some ⟨(historyView2 histDemo).cols, (historyView2 histDemo).rows.take 20⟩ :=
  (recent_activity_sorted histDemo "created_at" (by with_unfolding_all decide)
    (by with_unfolding_all decide)).1
